import Mathlib

/-!
Shallow embedding of the TAHO library-catalog application (app.py):
the data model (Category, Book), the catalog store, the search route,
the category-scoped listing routes with pagination and sorting, and
the bootstrap category seeder, together with theorems settling the
specification claims about them.
-/

namespace Taho

/-! ### ASCII lowering (SQLite lower / case-insensitive LIKE) -/

/-- ASCII lower-casing of a single character, as SQLite's lower() applies it
to the column value and to the LIKE pattern in an ilike comparison. -/
def lowerChar (c : Char) : Char :=
  match c with
  | 'A' => 'a' | 'B' => 'b' | 'C' => 'c' | 'D' => 'd' | 'E' => 'e'
  | 'F' => 'f' | 'G' => 'g' | 'H' => 'h' | 'I' => 'i' | 'J' => 'j'
  | 'K' => 'k' | 'L' => 'l' | 'M' => 'm' | 'N' => 'n' | 'O' => 'o'
  | 'P' => 'p' | 'Q' => 'q' | 'R' => 'r' | 'S' => 's' | 'T' => 't'
  | 'U' => 'u' | 'V' => 'v' | 'W' => 'w' | 'X' => 'x' | 'Y' => 'y'
  | 'Z' => 'z'
  | c => c

/-! ### SQL LIKE pattern matching -/

/-- All suffixes of a character list, the list itself first. -/
def tailsList : List Char → List (List Char)
  | [] => [[]]
  | c :: cs => (c :: cs) :: tailsList cs

/-- SQL LIKE pattern matching over character lists: a percent sign matches any
(possibly empty) sequence, an underscore matches exactly one character, any
other pattern character matches itself.  Case sensitivity is handled by the
caller lowering both sides, as SQLAlchemy's ilike emits lower(x) LIKE lower(p). -/
def likeM : List Char → List Char → Bool
  | [], s => s.isEmpty
  | p :: ps, s =>
    if p = '%' then (tailsList s).any (fun t => likeM ps t)
    else
      match s with
      | [] => false
      | c :: cs => (p = '_' || p = c) && likeM ps cs

/-- The LIKE pattern the search route builds for a query, lowered:
the characters of the Python f-string pattern percent-query-percent. -/
def ilikePat (q : String) : List Char :=
  ('%' :: q.data ++ ['%']).map lowerChar

/-- Case-insensitive LIKE match of a column value against the search pattern,
embedding column.ilike of the pattern built from q. -/
def ilikeMatch (q : String) (s : String) : Bool :=
  likeM (ilikePat q) (s.data.map lowerChar)

/-! ### Plain substring containment (the specification's wording) -/

/-- Does the character list s start with q? -/
def startsWithL : List Char → List Char → Bool
  | _, [] => true
  | [], _ :: _ => false
  | c :: cs, q :: qs => (q = c) && startsWithL cs qs

/-- Does q occur as a contiguous substring of s? -/
def hasSub : List Char → List Char → Bool
  | [], q => startsWithL [] q
  | c :: cs, q => startsWithL (c :: cs) q || hasSub cs q

/-- Modelled from the spec: case-insensitive substring containment, the
wording by which the spec describes field matching in search. -/
def containsCI (s q : String) : Bool :=
  hasSub (s.data.map lowerChar) (q.data.map lowerChar)

/-! ### Data model -/

/-- The Category record of models.py. -/
structure Category where
  id : Nat
  name : String
  description : Option String
  image_path : Option String
  deriving DecidableEq

/-- The Book record of models.py. -/
structure Book where
  id : Nat
  title : String
  author : String
  description : Option String
  cover_image : Option String
  published_date : Option String
  isbn : Option String
  publisher : Option String
  pages : Option Nat
  available : Bool
  category_id : Nat
  created_at : Nat
  deriving DecidableEq

/-- The catalog store: the two tables, in insertion (rowid) order. -/
structure Store where
  categories : List Category
  books : List Book
  deriving DecidableEq

/-- The flat dictionary produced by Book.to_dict. -/
structure BookDict where
  id : Nat
  title : String
  author : String
  description : Option String
  cover_image : Option String
  published_date : Option String
  isbn : Option String
  publisher : Option String
  pages : Option Nat
  available : Bool
  category : String
  deriving DecidableEq

/-- Category.query.filter_by(name=name).first(): first category with the name. -/
def findCategory (s : Store) (name : String) : Option Category :=
  s.categories.find? (fun c => c.name = name)

/-- Resolution of the category relationship of a book: the category row whose
primary key equals the book's foreign key. -/
def findCatById (s : Store) (cid : Nat) : Option Category :=
  s.categories.find? (fun c => c.id = cid)

/-- Book.to_dict: the serialized form, whose category field carries the
owning category's name (resolved through the relationship). -/
def Book.to_dict (s : Store) (b : Book) : BookDict :=
  { id := b.id
    title := b.title
    author := b.author
    description := b.description
    cover_image := b.cover_image
    published_date := b.published_date
    isbn := b.isbn
    publisher := b.publisher
    pages := b.pages
    available := b.available
    category := ((findCatById s b.category_id).map (fun c => c.name)).getD "" }

/-! ### The search route (routes/main.py) -/

/-- Python str.isdigit restricted to the decimal-digit repertoire used by
the routes: nonempty and every character a digit. -/
def isDigitShaped (c : String) : Bool :=
  !c.data.isEmpty && c.data.all (fun ch => ch.isDigit)

/-- Python int() on a digit-shaped string. -/
def digitsVal (l : List Char) : Nat :=
  l.foldl (fun acc c => acc * 10 + (c.toNat - 48)) 0

/-- Whether a book satisfies the three-way ilike disjunction of the search
route; a NULL description never matches (SQL NULL comparison). -/
def searchMatches (q : String) (b : Book) : Bool :=
  ilikeMatch q b.title || ilikeMatch q b.author ||
    (match b.description with
     | some d => ilikeMatch q d
     | none => false)

/-- The specification's wording of field matching: a book matches a query
when its title, author, or description contains the query as a
case-insensitive substring (three-way OR); an absent description matches
nothing. -/
def specMatches (q : String) (b : Book) : Bool :=
  containsCI b.title q || containsCI b.author q ||
    (match b.description with
     | some d => containsCI d q
     | none => false)

/-- The list book_query.all() of the search route: empty for an empty query,
otherwise the ilike filter, further restricted by category when the category
parameter is present and digit-shaped. -/
def searchBooks (s : Store) (q : String) (cid : Option String) : List Book :=
  if q = "" then []
  else
    let base := s.books.filter (fun b => searchMatches q b)
    match cid with
    | none => base
    | some c => if isDigitShaped c then base.filter (fun b => b.category_id = digitsVal c.data) else base

/-- The JSON body returned by the search route. -/
structure SearchResult where
  results : List BookDict
  count : Nat
  deriving DecidableEq

/-- The search route: serializes the matched books and reports their count. -/
def search (s : Store) (q : String) (cid : Option String) : SearchResult :=
  { results := (searchBooks s q cid).map (fun b => b.to_dict s)
    count := (searchBooks s q cid).length }

/-! ### Sorting (ORDER BY) -/

/-- Lexicographic less-or-equal on character lists by code point, the order
SQLite's BINARY collation induces on (UTF-8 encoded) strings. -/
def listLeB : List Char → List Char → Bool
  | [], _ => true
  | _ :: _, [] => false
  | a :: as, b :: bs =>
    if a.toNat < b.toNat then true
    else if b.toNat < a.toNat then false
    else listLeB as bs

/-- Order on the nullable published_date column: NULL sorts below every
string, as in SQLite. -/
def pdLe (a b : Option String) : Bool :=
  match a, b with
  | none, _ => true
  | some _, none => false
  | some x, some y => listLeB x.data y.data

/-- ORDER BY Book.title (ascending). -/
def titleLe (a b : Book) : Bool :=
  listLeB a.title.data b.title.data

/-- ORDER BY Book.published_date DESC: a row comes before another when its
date key is at least the other's. -/
def dateGe (a b : Book) : Bool :=
  pdLe b.published_date a.published_date

/-- Insertion of an element into a list sorted by le. -/
def insertLe {α : Type} (le : α → α → Bool) (a : α) : List α → List α
  | [] => [a]
  | b :: bs => if le a b then a :: b :: bs else b :: insertLe le a bs

/-- Sorting by le (insertion sort), embedding the ORDER BY clause. -/
def sortLe {α : Type} (le : α → α → Bool) : List α → List α
  | [] => []
  | a :: as => insertLe le a (sortLe le as)

/-! ### Pagination (flask-sqlalchemy paginate with error_out false) -/

/-- The pagination object: the page's item slice and its metadata. -/
structure Pagination where
  items : List Book
  page : Nat
  per_page : Nat
  total : Nat
  pages : Nat
  has_prev : Bool
  has_next : Bool
  deriving DecidableEq

/-- query.paginate(page, per_page, error_out=False): a page below 1 is
clamped to 1, a per_page below 1 falls back to the default 20, the slice is
offset (page-1)*per_page limit per_page, and pages is the ceiling of
total/per_page. -/
def paginate (l : List Book) (page per_page : Int) : Pagination :=
  let p : Nat := if page < 1 then 1 else page.toNat
  let pp : Nat := if per_page < 1 then 20 else per_page.toNat
  let total := l.length
  let pages := (total + pp - 1) / pp
  { items := (l.drop ((p - 1) * pp)).take pp
    page := p
    per_page := pp
    total := total
    pages := pages
    has_prev := decide (1 < p)
    has_next := decide (p < pages) }

/-! ### The category routes (routes/books.py) -/

/-- What the category view hands to its template. -/
structure CategoryPage where
  category : Category
  books : List Book
  pagination : Pagination
  total_books : Nat
  deriving DecidableEq

/-- The category view: resolve the category by name (404 when absent, the
none outcome), paginate its books in store order, and count them. -/
def category (s : Store) (name : String) (page per_page : Int) : Option CategoryPage :=
  (findCategory s name).map (fun cat =>
    let pag := paginate (s.books.filter (fun b => b.category_id = cat.id)) page per_page
    { category := cat
      books := pag.items
      pagination := pag
      total_books := (s.books.filter (fun b => b.category_id = cat.id)).length })

/-- The JSON body returned by the api books route; current_page echoes the
raw request parameter. -/
structure ApiResult where
  books : List BookDict
  total : Nat
  pages : Nat
  current_page : Int
  deriving DecidableEq

/-- The api books route: resolve the category by name (404 when absent),
order by title ascending or published_date descending when requested (any
other sort_by value leaves store order), paginate, and serialize. -/
def api_category_books (s : Store) (name : String) (page per_page : Int) (sort_by : String) : Option ApiResult :=
  (findCategory s name).map (fun cat =>
    let base := s.books.filter (fun b => b.category_id = cat.id)
    let sorted :=
      if sort_by = "title" then sortLe titleLe base
      else if sort_by = "date" then sortLe dateGe base
      else base
    let pag := paginate sorted page per_page
    { books := pag.items.map (fun b => b.to_dict s)
      total := base.length
      pages := pag.pages
      current_page := page })

/-! ### The bootstrap seeder (database.py db_init) -/

/-- The fixed category vocabulary of db_init, in source order. -/
def seededCategories : List String :=
  ["Academic", "Criminology", "Fiction", "Thesis",
   "Financial", "Religion", "Self-Growth", "Technology"]

/-- Insertion of a fresh category row: appended in table order with the next
rowid. -/
def addCategory (s : Store) (n : String) : Store :=
  { s with
    categories := s.categories ++
      [{ id := (s.categories.map (fun c => c.id)).foldr max 0 + 1
         name := n
         description := none
         image_path := none }] }

/-- One iteration of the seeding loop of db_init: create the category
unless one with that name already exists. -/
def seedStep (st : Store) (n : String) : Store :=
  if st.categories.any (fun c => c.name = n) then st else addCategory st n

/-- The seeding loop of db_init, iterated over the fixed vocabulary. -/
def db_init (s : Store) : Store :=
  seededCategories.foldl seedStep s

/-- The store before any seeding. -/
def emptyStore : Store :=
  { categories := [], books := [] }

/-! ### Availability rewriting, for the claims about the availability flag -/

/-- A book with its availability flag overwritten. -/
def setAvail (v : Bool) (b : Book) : Book :=
  { b with available := v }

/-- A serialized book with its availability field overwritten. -/
def setAvailD (v : Bool) (d : BookDict) : BookDict :=
  { d with available := v }

/-- A store with every book's availability flag overwritten. -/
def mapAvail (v : Bool) (s : Store) : Store :=
  { s with books := s.books.map (setAvail v) }

/-! ### Concrete fixtures -/

/-- A book by Tolkien, matching the spec's search example. -/
def tolkienBook : Book :=
  { id := 1, title := "The Hobbit", author := "J.R.R. Tolkien",
    description := none, cover_image := none, published_date := some "1937",
    isbn := none, publisher := none, pages := none, available := true,
    category_id := 1, created_at := 0 }

/-- A book by King, matching the spec's search example. -/
def kingBook : Book :=
  { id := 2, title := "It", author := "King",
    description := none, cover_image := none, published_date := some "1986",
    isbn := none, publisher := none, pages := none, available := true,
    category_id := 1, created_at := 0 }

/-- A two-book store used to instantiate the search theorems. -/
def fixtureStore : Store :=
  { categories := [{ id := 1, name := "Fiction", description := none, image_path := none }],
    books := [tolkienBook, kingBook] }

/-- A one-book store whose only book has title and author consisting of a
single letter a. -/
def cexStore : Store :=
  { categories := [{ id := 1, name := "Fiction", description := none, image_path := none }],
    books := [{ id := 1, title := "a", author := "a",
                description := none, cover_image := none, published_date := none,
                isbn := none, publisher := none, pages := none, available := true,
                category_id := 1, created_at := 0 }] }

/-- One of twenty-five identical Fiction books. -/
def book25 (i : Nat) : Book :=
  { id := i, title := "b", author := "a",
    description := none, cover_image := none, published_date := none,
    isbn := none, publisher := none, pages := none, available := true,
    category_id := 1, created_at := 0 }

/-- A store with one category holding twenty-five books, for the pagination
examples. -/
def store25 : Store :=
  { categories := [{ id := 1, name := "Fiction", description := none, image_path := none }],
    books := (List.range 25).map book25 }

/-! ### Lemmas on lowering and LIKE matching -/

/-- ASCII lowering never produces the percent wildcard. -/
lemma lowerChar_pct {c : Char} (h : lowerChar c = '%') : c = '%' := by
  unfold lowerChar at h
  split at h
  all_goals first
    | exact h
    | exact absurd h (by decide)

/-- ASCII lowering never produces the underscore wildcard. -/
lemma lowerChar_us {c : Char} (h : lowerChar c = '_') : c = '_' := by
  unfold lowerChar at h
  split at h
  all_goals first
    | exact h
    | exact absurd h (by decide)

/-- Unfolding of likeM at a leading percent. -/
lemma likeM_cons_pct (ps : List Char) (s : List Char) :
    likeM ('%' :: ps) s = (tailsList s).any (fun t => likeM ps t) := by
  simp only [likeM, if_true]

/-- Unfolding of likeM at a non-percent pattern head against an empty
subject. -/
lemma likeM_cons_nil {p : Char} (hp : p ≠ '%') (ps : List Char) :
    likeM (p :: ps) [] = false := by
  simp only [likeM, if_neg hp]

/-- Unfolding of likeM at a non-percent pattern head against a nonempty
subject. -/
lemma likeM_cons_lit {p : Char} (hp : p ≠ '%') (ps : List Char) (c : Char) (cs : List Char) :
    likeM (p :: ps) (c :: cs) = ((p = '_' || p = c) && likeM ps cs) := by
  simp only [likeM, if_neg hp]

/-- The suffixes of a list are exactly its drops. -/
lemma mem_tailsList {t s : List Char} : t ∈ tailsList s ↔ ∃ n, t = s.drop n := by
  induction s generalizing t with
  | nil =>
    simp [tailsList]
  | cons c cs ih =>
    simp only [tailsList, List.mem_cons, ih]
    constructor
    · rintro (rfl | ⟨n, rfl⟩)
      · exact ⟨0, rfl⟩
      · exact ⟨n + 1, rfl⟩
    · rintro ⟨n, rfl⟩
      cases n with
      | zero => exact Or.inl rfl
      | succ m => exact Or.inr ⟨m, rfl⟩

/-- A leading percent matches some suffix of the subject against the rest of
the pattern. -/
lemma likeM_wild {ps : List Char} {s : List Char} :
    likeM ('%' :: ps) s = true ↔ ∃ n, likeM ps (s.drop n) = true := by
  rw [likeM_cons_pct]
  simp only [List.any_eq_true]
  constructor
  · rintro ⟨t, ht, hm⟩
    obtain ⟨n, rfl⟩ := mem_tailsList.mp ht
    exact ⟨n, hm⟩
  · rintro ⟨n, hm⟩
    exact ⟨s.drop n, mem_tailsList.mpr ⟨n, rfl⟩, hm⟩

/-- A pattern consisting of a single percent matches everything. -/
lemma likeM_pct_all (s : List Char) : likeM ['%'] s = true := by
  induction s with
  | nil => rfl
  | cons c cs ih =>
    rw [likeM_cons_pct] at ih ⊢
    simp only [tailsList, List.any_cons, Bool.or_eq_true]
    exact Or.inr ih

/-- A wildcard-free pattern followed by a single percent matches exactly the
subjects that start with the pattern. -/
lemma likeM_lit {p : List Char} (s : List Char)
    (hp : ∀ c ∈ p, c ≠ '%' ∧ c ≠ '_') :
    likeM (p ++ ['%']) s = startsWithL s p := by
  induction p generalizing s with
  | nil =>
    simp only [List.nil_append, likeM_pct_all s, startsWithL]
  | cons a as ih =>
    have ha := hp a (List.mem_cons_self a as)
    have has : ∀ c ∈ as, c ≠ '%' ∧ c ≠ '_' :=
      fun c hc => hp c (List.mem_cons_of_mem a hc)
    cases s with
    | nil =>
      rw [List.cons_append, likeM_cons_nil ha.1, startsWithL]
    | cons c cs =>
      rw [List.cons_append, likeM_cons_lit ha.1, startsWithL, ih cs has,
        decide_eq_false ha.2, Bool.false_or]

/-- Substring containment is startswith at some drop. -/
lemma hasSub_iff {s p : List Char} :
    hasSub s p = true ↔ ∃ n, startsWithL (s.drop n) p = true := by
  induction s with
  | nil =>
    constructor
    · intro h
      exact ⟨0, h⟩
    · rintro ⟨n, hn⟩
      simpa using hn
  | cons c cs ih =>
    simp only [hasSub, Bool.or_eq_true, ih]
    constructor
    · rintro (h | ⟨n, hn⟩)
      · exact ⟨0, h⟩
      · exact ⟨n + 1, hn⟩
    · rintro ⟨n, hn⟩
      cases n with
      | zero => exact Or.inl hn
      | succ m => exact Or.inr ⟨m, hn⟩

/-- On queries without LIKE wildcards the ilike comparison of the search
route is exactly case-insensitive substring containment. -/
lemma ilikeMatch_eq_containsCI {q : String} (s : String)
    (hq : ∀ c ∈ q.data, c ≠ '%' ∧ c ≠ '_') :
    ilikeMatch q s = containsCI s q := by
  have hpct : lowerChar '%' = '%' := rfl
  have hpat : ilikePat q = '%' :: (q.data.map lowerChar ++ ['%']) := by
    simp [ilikePat, hpct]
  have hq' : ∀ c ∈ q.data.map lowerChar, c ≠ '%' ∧ c ≠ '_' := by
    intro c hc
    obtain ⟨c0, hc0, rfl⟩ := List.mem_map.mp hc
    exact ⟨fun h => (hq c0 hc0).1 (lowerChar_pct h),
           fun h => (hq c0 hc0).2 (lowerChar_us h)⟩
  rw [ilikeMatch, hpat, containsCI, Bool.eq_iff_iff, likeM_wild, hasSub_iff]
  constructor
  · rintro ⟨n, hn⟩
    rw [likeM_lit _ hq'] at hn
    exact ⟨n, hn⟩
  · rintro ⟨n, hn⟩
    refine ⟨n, ?_⟩
    rw [likeM_lit _ hq']
    exact hn

/-- On queries without LIKE wildcards the route's three-way ilike
disjunction coincides with the spec's three-way substring disjunction. -/
lemma searchMatches_eq_specMatches {q : String} (b : Book)
    (hq : ∀ c ∈ q.data, c ≠ '%' ∧ c ≠ '_') :
    searchMatches q b = specMatches q b := by
  unfold searchMatches specMatches
  simp only [ilikeMatch_eq_containsCI _ hq]

/-! ### Claim theorems: search -/

/-- C1 counterexample: for the non-empty query consisting of a single
percent sign, the search route does not return the books containing the
query as a case-insensitive substring: the pattern acts as a LIKE wildcard
and matches the store's only book, whose fields contain no percent sign. -/
theorem search_substring_cex :
    ¬(search cexStore "%" none =
        { results := (cexStore.books.filter (fun b => specMatches "%" b)).map
            (fun b => b.to_dict cexStore)
          count := (cexStore.books.filter (fun b => specMatches "%" b)).length }) := by
  decide

/-- C1 (amended): for every non-empty query string q containing no SQL LIKE
wildcard character (percent sign or underscore), search(q) returns exactly
the books whose title, author, or description contains q as a
case-insensitive substring (three-way OR), together with the count of those
books. -/
theorem search_substring_correct (s : Store) (q : String) (hq1 : q ≠ "")
    (hq2 : ∀ c ∈ q.data, c ≠ '%' ∧ c ≠ '_') :
    search s q none =
      { results := (s.books.filter (fun b => specMatches q b)).map (fun b => b.to_dict s)
        count := (s.books.filter (fun b => specMatches q b)).length } := by
  have hb : searchBooks s q none = s.books.filter (fun b => specMatches q b) := by
    unfold searchBooks
    rw [if_neg hq1]
    exact List.filter_congr (fun b _ => searchMatches_eq_specMatches b hq2)
  unfold search
  rw [hb]

/-- Witness for C1's amended theorem at the spec's Tolkien example. -/
theorem search_substring_correct_w :
    ("tolkien" ≠ "" ∧ ∀ c ∈ "tolkien".data, c ≠ '%' ∧ c ≠ '_') ∧
    search fixtureStore "tolkien" none =
      { results := (fixtureStore.books.filter (fun b => specMatches "tolkien" b)).map
          (fun b => b.to_dict fixtureStore)
        count := (fixtureStore.books.filter (fun b => specMatches "tolkien" b)).length } :=
  ⟨⟨by decide, by decide⟩,
   search_substring_correct fixtureStore "tolkien" (by decide) (by decide)⟩

/-- C6: search with an empty query returns the successful empty result, no
matter the store and the category filter. -/
theorem search_empty_query (s : Store) (cid : Option String) :
    search s "" cid = { results := [], count := 0 } := by
  simp [search, searchBooks]

/-- C7: a category filter that is not digit-shaped is silently skipped, so
the search behaves as if no filter were supplied; a digit-shaped filter
additionally restricts the matches to the named category. -/
theorem search_category_filter (s : Store) (q : String) (c : String) (hq : q ≠ "") :
    (isDigitShaped c = false → search s q (some c) = search s q none) ∧
    (isDigitShaped c = true →
      searchBooks s q (some c) =
        (searchBooks s q none).filter (fun b => b.category_id = digitsVal c.data)) := by
  constructor
  · intro h
    have hb : searchBooks s q (some c) = searchBooks s q none := by
      simp [searchBooks, hq, h]
    unfold search
    rw [hb]
  · intro h
    simp [searchBooks, hq, h]

/-- Witness for C7 at a non-digit filter and at a digit filter. -/
theorem search_category_filter_w :
    search fixtureStore "tolkien" (some "abc") = search fixtureStore "tolkien" none ∧
    searchBooks fixtureStore "tolkien" (some "1") =
      (searchBooks fixtureStore "tolkien" none).filter
        (fun b => b.category_id = digitsVal "1".data) :=
  ⟨(search_category_filter fixtureStore "tolkien" "abc" (by decide)).1 (by decide),
   (search_category_filter fixtureStore "tolkien" "1" (by decide)).2 (by decide)⟩

/-! ### Lemmas on the seeder -/

/-- A single seeding step keeps every category name that is already
present. -/
lemma seedStep_pres {st : Store} {n : String} (m : String)
    (h : st.categories.any (fun c => c.name = n) = true) :
    (seedStep st m).categories.any (fun c => c.name = n) = true := by
  unfold seedStep
  split
  · exact h
  · simp only [addCategory, List.any_append, Bool.or_eq_true]
    exact Or.inl h

/-- The seeding loop keeps every category name that is already present. -/
lemma seedFold_pres (names : List String) {st : Store} {n : String}
    (h : st.categories.any (fun c => c.name = n) = true) :
    (names.foldl seedStep st).categories.any (fun c => c.name = n) = true := by
  induction names generalizing st with
  | nil => exact h
  | cons m ms ih => exact ih (seedStep_pres m h)

/-- After one seeding step for a name, the name is present. -/
lemma seedStep_mem (st : Store) (m : String) :
    (seedStep st m).categories.any (fun c => c.name = m) = true := by
  unfold seedStep
  split
  · assumption
  · simp [addCategory, List.any_append]

/-- Every name fed to the seeding loop is present afterwards. -/
lemma seedFold_mem (names : List String) (st : Store) (n : String)
    (h : n ∈ names) :
    (names.foldl seedStep st).categories.any (fun c => c.name = n) = true := by
  induction names generalizing st with
  | nil => cases h
  | cons m ms ih =>
    rcases List.mem_cons.mp h with rfl | hm
    · exact seedFold_pres ms (seedStep_mem st n)
    · exact ih (seedStep st m) hm

/-- The seeding loop is the identity when every fed name is already
present. -/
lemma seedFold_id (names : List String) (st : Store)
    (h : ∀ n ∈ names, st.categories.any (fun c => c.name = n) = true) :
    names.foldl seedStep st = st := by
  induction names generalizing st with
  | nil => rfl
  | cons m ms ih =>
    have hm : seedStep st m = st := by
      unfold seedStep
      rw [if_pos (h m (List.mem_cons_self m ms))]
    rw [List.foldl_cons, hm]
    exact ih st (fun n hn => h n (List.mem_cons_of_mem m hn))

/-- The seeding loop never changes how many categories carry a name that is
already present. -/
lemma seedFold_countP (names : List String) (st : Store) (n : String)
    (h : st.categories.any (fun c => c.name = n) = true) :
    ((names.foldl seedStep st).categories.countP (fun c => c.name = n)) =
      st.categories.countP (fun c => c.name = n) := by
  induction names generalizing st with
  | nil => rfl
  | cons m ms ih =>
    rw [List.foldl_cons]
    have hstep : (seedStep st m).categories.countP (fun c => c.name = n) =
        st.categories.countP (fun c => c.name = n) := by
      unfold seedStep
      split
      · rfl
      · rename_i hm
        have hmn : m ≠ n := by
          rintro rfl
          exact hm h
        simp [addCategory, List.countP_append, List.countP_cons, hmn]
    rw [ih (seedStep st m) (seedStep_pres m h), hstep]

/-! ### Claim theorems: seeder -/

/-- C4: the seeder is idempotent, and against a store already containing a
category name it creates no duplicate of it: the count of categories
carrying any already-present name is unchanged. -/
theorem db_init_idempotent (s : Store) :
    db_init (db_init s) = db_init s ∧
    ∀ n, s.categories.any (fun c => c.name = n) = true →
      (db_init s).categories.countP (fun c => c.name = n) =
        s.categories.countP (fun c => c.name = n) := by
  constructor
  · exact seedFold_id seededCategories (db_init s)
      (fun n hn => seedFold_mem seededCategories s n hn)
  · intro n hn
    exact seedFold_countP seededCategories s n hn

/-- Witness for C4 at a store already containing the Fiction category. -/
theorem db_init_idempotent_w :
    db_init (db_init fixtureStore) = db_init fixtureStore ∧
    (db_init fixtureStore).categories.countP (fun c => c.name = "Fiction") =
      fixtureStore.categories.countP (fun c => c.name = "Fiction") :=
  ⟨(db_init_idempotent fixtureStore).1,
   (db_init_idempotent fixtureStore).2 "Fiction" (by decide)⟩

/-- C9: seeding an initially empty store creates exactly the eight fixed
categories, in source order, and no others. -/
theorem db_init_names :
    (db_init emptyStore).categories.map (fun c => c.name) =
      ["Academic", "Criminology", "Fiction", "Thesis",
       "Financial", "Religion", "Self-Growth", "Technology"] := by
  decide

/-! ### Lemmas on pagination -/

/-- The page count times the page size covers the whole collection. -/
lemma ceil_mul_ge (t pp : Nat) (h : 0 < pp) : t ≤ ((t + pp - 1) / pp) * pp := by
  rw [Nat.mul_comm]
  have h1 := Nat.div_add_mod (t + pp - 1) pp
  have h2 := Nat.mod_lt (t + pp - 1) h
  omega

/-- A slice starting past the last page is empty. -/
lemma slice_beyond (l : List Book) (p pp : Nat) (hpp : 0 < pp)
    (h : (l.length + pp - 1) / pp < p) :
    (l.drop ((p - 1) * pp)).take pp = [] := by
  have hk : l.length ≤ (p - 1) * pp := by
    calc l.length ≤ ((l.length + pp - 1) / pp) * pp := ceil_mul_ge l.length pp hpp
      _ ≤ (p - 1) * pp := Nat.mul_le_mul_right pp (by omega)
  rw [List.drop_eq_nil_of_le hk, List.take_nil]

/-! ### Claim theorems: pagination and not-found -/

/-- C3: for an existing category, a page request beyond the last page
returns an empty item slice with the correct pagination metadata, and is a
success rather than an error. -/
theorem category_page_beyond (s : Store) (name : String) (cat : Category)
    (page per_page : Int)
    (h1 : findCategory s name = some cat)
    (h2 : 1 ≤ per_page)
    (h3 : ((((s.books.filter (fun b => b.category_id = cat.id)).length
        + per_page.toNat - 1) / per_page.toNat : Nat) : Int) < page) :
    ∃ r, category s name page per_page = some r ∧ r.books = [] ∧
      r.pagination.pages =
        ((s.books.filter (fun b => b.category_id = cat.id)).length
          + per_page.toNat - 1) / per_page.toNat ∧
      r.pagination.page = page.toNat ∧
      r.total_books = (s.books.filter (fun b => b.category_id = cat.id)).length := by
  have hpp : (if per_page < 1 then 20 else per_page.toNat) = per_page.toNat := by
    rw [if_neg]
    omega
  have hppPos : 0 < per_page.toNat := by omega
  have hpage1 : ¬ page < 1 := by
    have h0 : (0 : Int) ≤
        ((((s.books.filter (fun b => b.category_id = cat.id)).length
          + per_page.toNat - 1) / per_page.toNat : Nat) : Int) := Int.natCast_nonneg _
    omega
  have hp : (if page < 1 then 1 else page.toNat) = page.toNat := by
    rw [if_neg hpage1]
  have h3' : ((s.books.filter (fun b => b.category_id = cat.id)).length
      + per_page.toNat - 1) / per_page.toNat < page.toNat := by
    generalize hq : ((s.books.filter (fun b => b.category_id = cat.id)).length
      + per_page.toNat - 1) / per_page.toNat = P at h3 ⊢
    omega
  unfold category
  rw [h1, Option.map_some']
  refine ⟨_, rfl, ?_, ?_, ?_, rfl⟩
  · show ((s.books.filter (fun b => b.category_id = cat.id)).drop _).take _ = []
    rw [hp, hpp]
    exact slice_beyond _ _ _ hppPos h3'
  · show (_ + (if per_page < 1 then 20 else per_page.toNat) - 1)
        / (if per_page < 1 then 20 else per_page.toNat) = _
    rw [hpp]
  · show (if page < 1 then 1 else page.toNat) = page.toNat
    rw [hp]

/-- Witness for C3 at the spec's 25-book example: page 4 of 10-per-page is
empty, while page 1 holds ten items over three pages. -/
theorem category_page_beyond_w :
    (∃ r, category store25 "Fiction" 4 10 = some r ∧ r.books = [] ∧
      r.pagination.pages =
        ((store25.books.filter (fun b => b.category_id =
          (⟨1, "Fiction", none, none⟩ : Category).id)).length + (10:Int).toNat - 1)
          / (10:Int).toNat ∧
      r.pagination.page = (4:Int).toNat ∧
      r.total_books = (store25.books.filter (fun b => b.category_id =
        (⟨1, "Fiction", none, none⟩ : Category).id)).length) ∧
    (category store25 "Fiction" 1 10).map (fun r => r.books.length) = some 10 ∧
    (category store25 "Fiction" 1 10).map (fun r => r.pagination.pages) = some 3 ∧
    (category store25 "Fiction" 1 10).map (fun r => r.pagination.page) = some 1 :=
  ⟨category_page_beyond store25 "Fiction" ⟨1, "Fiction", none, none⟩ 4 10
      (by decide) (by decide) (by decide),
   by decide, by decide, by decide⟩

/-- C5: a category name matching no existing category makes both the
category view and the api listing produce the distinguishable not-found
outcome, never a successful empty result. -/
theorem category_not_found (s : Store) (name : String) (page per_page : Int)
    (sort_by : String) (h : findCategory s name = none) :
    category s name page per_page = none ∧
    api_category_books s name page per_page sort_by = none := by
  unfold category api_category_books
  rw [h]
  exact ⟨rfl, rfl⟩

/-- Witness for C5 at the spec's NoSuchCategory example. -/
theorem category_not_found_w :
    category store25 "NoSuchCategory" 1 10 = none ∧
    api_category_books store25 "NoSuchCategory" 1 10 "relevance" = none :=
  category_not_found store25 "NoSuchCategory" 1 10 "relevance" (by decide)

/-! ### Lemmas on sorting -/

/-- The byte order on character lists is total. -/
lemma listLeB_total : ∀ a b : List Char, listLeB a b = true ∨ listLeB b a = true := by
  intro a
  induction a with
  | nil => intro b; exact Or.inl rfl
  | cons x xs ih =>
    intro b
    cases b with
    | nil => exact Or.inr rfl
    | cons y ys =>
      rcases Nat.lt_trichotomy x.toNat y.toNat with h | h | h
      · left
        simp [listLeB, h]
      · have hxy : ¬ x.toNat < y.toNat := by omega
        have hyx : ¬ y.toNat < x.toNat := by omega
        rcases ih ys with h1 | h1
        · left
          simp [listLeB, hxy, hyx, h1]
        · right
          simp [listLeB, hxy, hyx, h1]
      · right
        simp [listLeB, h]

/-- The byte order on character lists is transitive. -/
lemma listLeB_trans : ∀ a b c : List Char,
    listLeB a b = true → listLeB b c = true → listLeB a c = true := by
  intro a
  induction a with
  | nil => intro b c _ _; rfl
  | cons x xs ih =>
    intro b c h1 h2
    cases b with
    | nil => simp [listLeB] at h1
    | cons y ys =>
      cases c with
      | nil => simp [listLeB] at h2
      | cons z zs =>
        simp only [listLeB] at h1 h2 ⊢
        by_cases hxy : x.toNat < y.toNat
        · by_cases hyz : y.toNat < z.toNat
          · rw [if_pos (by omega : x.toNat < z.toNat)]
          · by_cases hzy : z.toNat < y.toNat
            · rw [if_pos hxy] at h1
              rw [if_neg hyz, if_pos hzy] at h2
              exact absurd h2 (by simp)
            · rw [if_pos (by omega : x.toNat < z.toNat)]
        · by_cases hyx : y.toNat < x.toNat
          · rw [if_neg hxy, if_pos hyx] at h1
            exact absurd h1 (by simp)
          · have hxyEq : x.toNat = y.toNat := by omega
            rw [if_neg hxy, if_neg hyx] at h1
            by_cases hyz : y.toNat < z.toNat
            · rw [if_pos (by omega : x.toNat < z.toNat)]
            · by_cases hzy : z.toNat < y.toNat
              · rw [if_neg hyz, if_pos hzy] at h2
                exact absurd h2 (by simp)
              · rw [if_neg hyz, if_neg hzy] at h2
                rw [if_neg (by omega : ¬ x.toNat < z.toNat),
                  if_neg (by omega : ¬ z.toNat < x.toNat)]
                exact ih ys zs h1 h2

/-- The published-date order is total. -/
lemma pdLe_total : ∀ a b : Option String, pdLe a b = true ∨ pdLe b a = true := by
  intro a b
  cases a with
  | none => exact Or.inl rfl
  | some x =>
    cases b with
    | none => exact Or.inr rfl
    | some y => exact listLeB_total x.data y.data

/-- The published-date order is transitive. -/
lemma pdLe_trans : ∀ a b c : Option String,
    pdLe a b = true → pdLe b c = true → pdLe a c = true := by
  intro a b c h1 h2
  cases a with
  | none => rfl
  | some x =>
    cases b with
    | none => simp [pdLe] at h1
    | some y =>
      cases c with
      | none => simp [pdLe] at h2
      | some z => exact listLeB_trans x.data y.data z.data h1 h2

/-- Membership in an insertion. -/
lemma mem_insertLe {α : Type} (le : α → α → Bool) (a x : α) :
    ∀ l : List α, x ∈ insertLe le a l ↔ x = a ∨ x ∈ l := by
  intro l
  induction l with
  | nil => simp [insertLe]
  | cons b bs ih =>
    unfold insertLe
    split
    · simp
    · simp only [List.mem_cons, ih]
      tauto

/-- Insertion into a pairwise-ordered list keeps it pairwise ordered. -/
lemma pairwise_insertLe {α : Type} (le : α → α → Bool)
    (htot : ∀ a b, le a b = true ∨ le b a = true)
    (htr : ∀ a b c, le a b = true → le b c = true → le a c = true)
    (a : α) : ∀ l : List α, l.Pairwise (fun x y => le x y = true) →
      (insertLe le a l).Pairwise (fun x y => le x y = true) := by
  intro l
  induction l with
  | nil =>
    intro _
    exact List.pairwise_singleton _ a
  | cons b bs ih =>
    intro h
    rcases List.pairwise_cons.mp h with ⟨hb, hbs⟩
    unfold insertLe
    split
    · rename_i hle
      refine List.pairwise_cons.mpr ⟨?_, h⟩
      intro y hy
      rcases List.mem_cons.mp hy with rfl | hy2
      · exact hle
      · exact htr a b y hle (hb y hy2)
    · rename_i hle
      have hba : le b a = true := by
        rcases htot a b with h1 | h1
        · exact absurd h1 hle
        · exact h1
      refine List.pairwise_cons.mpr ⟨?_, ih hbs⟩
      intro y hy
      rcases (mem_insertLe le a y bs).mp hy with rfl | hy2
      · exact hba
      · exact hb y hy2

/-- The insertion sort used to model ORDER BY produces a pairwise-ordered
list. -/
lemma pairwise_sortLe {α : Type} (le : α → α → Bool)
    (htot : ∀ a b, le a b = true ∨ le b a = true)
    (htr : ∀ a b c, le a b = true → le b c = true → le a c = true) :
    ∀ l : List α, (sortLe le l).Pairwise (fun x y => le x y = true) := by
  intro l
  induction l with
  | nil => exact List.Pairwise.nil
  | cons a as ih => exact pairwise_insertLe le htot htr a (sortLe le as) ih

/-- A pairwise-ordered list stays pairwise ordered on any page slice. -/
lemma pairwise_slice {α : Type} {R : α → α → Prop} {l : List α}
    (h : l.Pairwise R) (n m : Nat) : ((l.drop n).take m).Pairwise R :=
  List.Pairwise.sublist ((List.take_sublist m _).trans (List.drop_sublist n l)) h

/-! ### Claim theorems: the api listing's sort contract -/

/-- C2: with sort_by title, the api listing returns items in non-decreasing
lexicographic title order; with sort_by date, in non-increasing order of the
published_date key; with any other sort_by value it succeeds and returns the
page slice of the category's books in store order. -/
theorem api_sort_by (s : Store) (name : String) (cat : Category)
    (page per_page : Int) (h : findCategory s name = some cat) :
    (∃ r, api_category_books s name page per_page "title" = some r ∧
      r.books.Pairwise (fun a b => listLeB a.title.data b.title.data = true)) ∧
    (∃ r, api_category_books s name page per_page "date" = some r ∧
      r.books.Pairwise (fun a b => pdLe b.published_date a.published_date = true)) ∧
    (∀ sort_by, sort_by ≠ "title" → sort_by ≠ "date" →
      api_category_books s name page per_page sort_by = some
        { books := (paginate (s.books.filter (fun b => b.category_id = cat.id))
            page per_page).items.map (fun b => b.to_dict s)
          total := (s.books.filter (fun b => b.category_id = cat.id)).length
          pages := (paginate (s.books.filter (fun b => b.category_id = cat.id))
            page per_page).pages
          current_page := page }) := by
  have e1 : api_category_books s name page per_page "title" = some
      { books := (paginate (sortLe titleLe (s.books.filter
          (fun b => b.category_id = cat.id))) page per_page).items.map
          (fun b => b.to_dict s)
        total := (s.books.filter (fun b => b.category_id = cat.id)).length
        pages := (paginate (sortLe titleLe (s.books.filter
          (fun b => b.category_id = cat.id))) page per_page).pages
        current_page := page } := by
    unfold api_category_books
    rw [h, Option.map_some']
    rfl
  have e2 : api_category_books s name page per_page "date" = some
      { books := (paginate (sortLe dateGe (s.books.filter
          (fun b => b.category_id = cat.id))) page per_page).items.map
          (fun b => b.to_dict s)
        total := (s.books.filter (fun b => b.category_id = cat.id)).length
        pages := (paginate (sortLe dateGe (s.books.filter
          (fun b => b.category_id = cat.id))) page per_page).pages
        current_page := page } := by
    unfold api_category_books
    rw [h, Option.map_some']
    rfl
  refine ⟨?_, ?_, ?_⟩
  · refine ⟨_, e1, ?_⟩
    have hs := pairwise_sortLe titleLe
      (fun a b => listLeB_total a.title.data b.title.data)
      (fun a b c => listLeB_trans a.title.data b.title.data c.title.data)
      (s.books.filter (fun b => b.category_id = cat.id))
    exact List.pairwise_map.mpr (pairwise_slice hs _ _)
  · refine ⟨_, e2, ?_⟩
    have hs := pairwise_sortLe dateGe
      (fun a b => pdLe_total b.published_date a.published_date)
      (fun a b c h1 h2 => pdLe_trans c.published_date b.published_date
        a.published_date h2 h1)
      (s.books.filter (fun b => b.category_id = cat.id))
    exact List.pairwise_map.mpr (pairwise_slice hs _ _)
  · intro sb h1 h2
    unfold api_category_books
    rw [h, Option.map_some']
    simp only [if_neg h1, if_neg h2]

/-- Witness for C2 at the two-book fixture store. -/
theorem api_sort_by_w :
    (∃ r, api_category_books fixtureStore "Fiction" 1 10 "title" = some r ∧
      r.books.Pairwise (fun a b => listLeB a.title.data b.title.data = true)) ∧
    (∃ r, api_category_books fixtureStore "Fiction" 1 10 "date" = some r ∧
      r.books.Pairwise (fun a b => pdLe b.published_date a.published_date = true)) ∧
    api_category_books fixtureStore "Fiction" 1 10 "relevance" = some
      { books := (paginate (fixtureStore.books.filter (fun b => b.category_id =
          (⟨1, "Fiction", none, none⟩ : Category).id)) 1 10).items.map
          (fun b => b.to_dict fixtureStore)
        total := (fixtureStore.books.filter (fun b => b.category_id =
          (⟨1, "Fiction", none, none⟩ : Category).id)).length
        pages := (paginate (fixtureStore.books.filter (fun b => b.category_id =
          (⟨1, "Fiction", none, none⟩ : Category).id)) 1 10).pages
        current_page := 1 } := by
  have h := api_sort_by fixtureStore "Fiction" ⟨1, "Fiction", none, none⟩ 1 10 (by decide)
  exact ⟨h.1, h.2.1, h.2.2 "relevance" (by decide) (by decide)⟩

/-! ### Claim theorems: serialization -/

/-- When primary keys are unique, looking a category up by id finds exactly
the member category carrying that id. -/
lemma find?_id_unique : ∀ (cats : List Category) (c : Category),
    (cats.map (fun x => x.id)).Nodup → c ∈ cats →
    cats.find? (fun x => x.id = c.id) = some c := by
  intro cats
  induction cats with
  | nil =>
    intro c _ hc
    cases hc
  | cons d ds ih =>
    intro c hnd hc
    have hnd2 : d.id ∉ ds.map (fun x => x.id) ∧ (ds.map (fun x => x.id)).Nodup :=
      List.nodup_cons.mp hnd
    by_cases hd : d.id = c.id
    · have hdc : d = c := by
        rcases List.mem_cons.mp hc with rfl | hmem
        · rfl
        · exact absurd (hd ▸ List.mem_map_of_mem (fun x => x.id) hmem) hnd2.1
      rw [List.find?_cons_of_pos _ (by simp [hd])]
      rw [hdc]
    · have hmem : c ∈ ds := by
        rcases List.mem_cons.mp hc with rfl | hmem
        · exact absurd rfl hd
        · exact hmem
      rw [List.find?_cons_of_neg _ (by simp [hd])]
      exact ih c hnd2.2 hmem

/-- C8: under referential integrity with unique category ids, a book's
serialized form carries the owning category's name in the category field. -/
theorem to_dict_category_name (s : Store) (b : Book) (c : Category)
    (hnd : (s.categories.map (fun x => x.id)).Nodup)
    (hc : c ∈ s.categories) (hid : c.id = b.category_id) :
    (b.to_dict s).category = c.name := by
  show ((findCatById s b.category_id).map (fun x => x.name)).getD "" = c.name
  rw [findCatById, ← hid, find?_id_unique s.categories c hnd hc]
  rfl

/-- Witness for C8 at the Tolkien fixture book. -/
theorem to_dict_category_name_w :
    (tolkienBook.to_dict fixtureStore).category =
      (⟨1, "Fiction", none, none⟩ : Category).name :=
  to_dict_category_name fixtureStore tolkienBook ⟨1, "Fiction", none, none⟩
    (by decide) (by decide) (by decide)

/-! ### Lemmas on availability rewriting -/

/-- The books of a store with availability overwritten. -/
lemma mapAvail_books (v : Bool) (s : Store) :
    (mapAvail v s).books = s.books.map (setAvail v) := rfl

/-- Filtering by an availability-blind predicate commutes with overwriting
availability. -/
lemma filter_map_setAvail {v : Bool} (p : Book → Bool)
    (hp : ∀ b, p (setAvail v b) = p b) (l : List Book) :
    (l.map (setAvail v)).filter p = (l.filter p).map (setAvail v) := by
  rw [List.filter_map]
  exact congrArg (List.map (setAvail v)) (List.filter_congr (fun x _ => hp x))

/-- The matched book list of the search route, on a store with availability
overwritten. -/
lemma searchBooks_mapAvail (v : Bool) (s : Store) (q : String) (cid : Option String) :
    searchBooks (mapAvail v s) q cid = (searchBooks s q cid).map (setAvail v) := by
  cases cid with
  | none =>
    by_cases hq : q = ""
    · simp [searchBooks, hq]
    · simp only [searchBooks, if_neg hq, mapAvail_books]
      exact filter_map_setAvail (fun b => searchMatches q b) (fun b => rfl) s.books
  | some c =>
    by_cases hq : q = ""
    · simp [searchBooks, hq]
    · by_cases hd : isDigitShaped c
      · simp only [searchBooks, if_neg hq, if_pos hd, mapAvail_books]
        rw [filter_map_setAvail (fun b => searchMatches q b) (fun b => rfl) s.books,
          filter_map_setAvail (fun b => decide (b.category_id = digitsVal c.data))
            (fun b => rfl) (s.books.filter (fun b => searchMatches q b))]
      · simp only [searchBooks, if_neg hq, if_neg hd, mapAvail_books]
        exact filter_map_setAvail (fun b => searchMatches q b) (fun b => rfl) s.books

/-- Pagination of a list with availability overwritten: the same metadata,
the items overwritten pointwise. -/
lemma paginate_map (v : Bool) (l : List Book) (page per_page : Int) :
    paginate (l.map (setAvail v)) page per_page =
      { items := (paginate l page per_page).items.map (setAvail v)
        page := (paginate l page per_page).page
        per_page := (paginate l page per_page).per_page
        total := (paginate l page per_page).total
        pages := (paginate l page per_page).pages
        has_prev := (paginate l page per_page).has_prev
        has_next := (paginate l page per_page).has_next } := by
  unfold paginate
  simp only [List.length_map, List.map_take, List.map_drop]

/-- Insertion commutes with mapping along an order-compatible function. -/
lemma insertLe_map {α β : Type} (le : α → α → Bool) (le2 : β → β → Bool)
    (f : β → α) (hc : ∀ x y, le (f x) (f y) = le2 x y) (a : β) :
    ∀ l : List β, insertLe le (f a) (l.map f) = (insertLe le2 a l).map f := by
  intro l
  induction l with
  | nil => rfl
  | cons b bs ih =>
    rw [List.map_cons]
    unfold insertLe
    rw [hc a b]
    split
    · rw [List.map_cons, List.map_cons]
    · rw [List.map_cons, ih]

/-- Sorting commutes with mapping along an order-compatible function. -/
lemma sortLe_map {α β : Type} (le : α → α → Bool) (le2 : β → β → Bool)
    (f : β → α) (hc : ∀ x y, le (f x) (f y) = le2 x y) :
    ∀ l : List β, sortLe le (l.map f) = (sortLe le2 l).map f := by
  intro l
  induction l with
  | nil => rfl
  | cons b bs ih =>
    rw [List.map_cons]
    unfold sortLe
    rw [ih, insertLe_map le le2 f hc]

/-! ### Claim theorem: availability never affects membership -/

/-- C10: overwriting every book's availability flag changes no result
membership: search, the category view, and the api listing return the same
books (with only their availability field rewritten) and the same counts and
pagination metadata. -/
theorem availability_immaterial (s : Store) (v : Bool) (q : String)
    (cid : Option String) (name : String) (page per_page : Int) (sort_by : String) :
    search (mapAvail v s) q cid =
      { results := (search s q cid).results.map (setAvailD v)
        count := (search s q cid).count } ∧
    category (mapAvail v s) name page per_page =
      (category s name page per_page).map (fun r =>
        { category := r.category
          books := r.books.map (setAvail v)
          pagination :=
            { items := r.pagination.items.map (setAvail v)
              page := r.pagination.page
              per_page := r.pagination.per_page
              total := r.pagination.total
              pages := r.pagination.pages
              has_prev := r.pagination.has_prev
              has_next := r.pagination.has_next }
          total_books := r.total_books }) ∧
    api_category_books (mapAvail v s) name page per_page sort_by =
      (api_category_books s name page per_page sort_by).map (fun r =>
        { books := r.books.map (setAvailD v)
          total := r.total
          pages := r.pages
          current_page := r.current_page }) := by
  have hfind : findCategory (mapAvail v s) name = findCategory s name := rfl
  refine ⟨?_, ?_, ?_⟩
  · unfold search
    rw [searchBooks_mapAvail]
    simp only [List.map_map, List.length_map]
    rfl
  · unfold category
    rw [hfind]
    cases hfc : findCategory s name with
    | none => rfl
    | some cat =>
      have hfilter : (mapAvail v s).books.filter (fun b => b.category_id = cat.id) =
          (s.books.filter (fun b => b.category_id = cat.id)).map (setAvail v) := by
        rw [mapAvail_books]
        exact filter_map_setAvail (fun b => decide (b.category_id = cat.id))
          (fun b => rfl) s.books
      simp only [Option.map_some', hfilter, paginate_map, List.length_map]
  · unfold api_category_books
    rw [hfind]
    cases hfc : findCategory s name with
    | none => rfl
    | some cat =>
      have hfilter : (mapAvail v s).books.filter (fun b => b.category_id = cat.id) =
          (s.books.filter (fun b => b.category_id = cat.id)).map (setAvail v) := by
        rw [mapAvail_books]
        exact filter_map_setAvail (fun b => decide (b.category_id = cat.id))
          (fun b => rfl) s.books
      have hsorted : (if sort_by = "title"
            then sortLe titleLe ((s.books.filter (fun b => b.category_id = cat.id)).map (setAvail v))
            else if sort_by = "date"
            then sortLe dateGe ((s.books.filter (fun b => b.category_id = cat.id)).map (setAvail v))
            else (s.books.filter (fun b => b.category_id = cat.id)).map (setAvail v)) =
          (if sort_by = "title"
            then sortLe titleLe (s.books.filter (fun b => b.category_id = cat.id))
            else if sort_by = "date"
            then sortLe dateGe (s.books.filter (fun b => b.category_id = cat.id))
            else s.books.filter (fun b => b.category_id = cat.id)).map (setAvail v) := by
        by_cases h1 : sort_by = "title"
        · rw [if_pos h1, if_pos h1, sortLe_map titleLe titleLe (setAvail v) (fun x y => rfl)]
        · by_cases h2 : sort_by = "date"
          · rw [if_neg h1, if_neg h1, if_pos h2, if_pos h2,
              sortLe_map dateGe dateGe (setAvail v) (fun x y => rfl)]
          · rw [if_neg h1, if_neg h1, if_neg h2, if_neg h2]
      simp only [Option.map_some', hfilter, hsorted, paginate_map, List.length_map,
        List.map_map]
      rfl

end Taho
